import Mathlib

/-
Verification of the thin-film optics engine (materials.py, utils.py, thinfilm.py).

The Python code evaluates everything on a numpy wavelength array; every array
operation it performs is an elementwise (broadcast) operation, so the embedding
models each quantity per wavelength and lifts to the grid with `List.map` /
`List.zipWith`.  Real/complex float arithmetic is modelled by exact ℝ/ℂ
arithmetic; the IEEE non-finite propagation documented for degenerate stacks is
modelled separately by `reflectance_point_ieee` (an `Option ℂ` refinement where
`none` marks a wavelength at which the float evaluation divides by zero and
produces NaN/Inf).
-/

noncomputable section

open scoped Classical

/-- Optical admittance of free space, from utils.py: `Y = 2.6544e-3`. -/
def Y : ℝ := 2.6544e-3

/-- Linear piece of `np.interp`: given the previous sample `p` and the
remaining samples, evaluate at `x`; clamps to the last sample value past the
right end.  Models utils.py `make_interpolator` (which wraps `np.interp`). -/
def interp_from (p : ℝ × ℝ) : List (ℝ × ℝ) → ℝ → ℝ
  | [], _ => p.2
  | q :: rest, x =>
    if x ≤ q.1 then p.2 + (x - p.1) * (q.2 - p.2) / (q.1 - p.1)
    else interp_from q rest x

/-- Piecewise-linear interpolation with boundary clamping over sample rows
`(wavelength, value)`, the per-point semantics of `np.interp` on a sorted
sample table. -/
def np_interp (rows : List (ℝ × ℝ)) (x : ℝ) : ℝ :=
  match rows with
  | [] => 0
  | p :: rest => if x ≤ p.1 then p.2 else interp_from p rest x

/-- A constructor argument of `Material.__init__` (materials.py): a Python
float, a path to a readable dispersion table (carried here as its parsed
`(wavelength, value)` rows), or anything else (a string that is not a file,
etc.), which the constructor rejects. -/
inductive NKSource where
  | realConst (c : ℝ)
  | table (rows : List (ℝ × ℝ))
  | unresolvable

/-- A material: the `n` and `k` closures stored by materials.py `Material`,
modelled per wavelength. -/
structure Material where
  nfun : ℝ → ℝ
  kfun : ℝ → ℝ

/-- One branch of `Material.__init__`: a float becomes a constant function, a
readable table becomes an `np.interp` interpolator, anything else raises
(`TypeError("n must be a float or a csv name!")`, the spec's
`ConfigurationError`).  `label` is the parameter name appearing in the
message. -/
def build_nk_fun (label : String) (s : NKSource) : Except String (ℝ → ℝ) :=
  match s with
  | NKSource.realConst c => Except.ok fun _ => c
  | NKSource.table rows => Except.ok (np_interp rows)
  | NKSource.unresolvable => Except.error (label ++ " must be a float or a csv name!")

/-- `Material.__init__(n, k)` from materials.py: the `n` source is checked
first (Python raises there before looking at `k`), then the `k` source. -/
def Material.init (n k : NKSource) : Except String Material :=
  (build_nk_fun "n" n).bind fun nf =>
    (build_nk_fun "k" k).bind fun kf =>
      Except.ok ⟨nf, kf⟩

/-- A Python value that is either a scalar or a wavelength array, for the
vectorized `get_n` / `get_k` interface. -/
inductive PyArr where
  | scalar (x : ℝ)
  | arr (xs : List ℝ)

/-- `Material.get_n` (materials.py): the stored closure, vectorized.  The
constant closure returns the float itself on a scalar and
`np.full(len(w), n)` on a sequence; the interpolating closure is `np.interp`,
which maps elementwise — both are the pointwise map of `nfun`. -/
def Material.get_n (m : Material) : PyArr → PyArr
  | PyArr.scalar x => PyArr.scalar (m.nfun x)
  | PyArr.arr xs => PyArr.arr (xs.map m.nfun)

/-- `Material.get_k` (materials.py), vectorized like `Material.get_n`. -/
def Material.get_k (m : Material) : PyArr → PyArr
  | PyArr.scalar x => PyArr.scalar (m.kfun x)
  | PyArr.arr xs => PyArr.arr (xs.map m.kfun)

/-- thinfilm.py `get_complex_index_of_refraction`, per wavelength:
`N = n - i k`. -/
def get_complex_index_of_refraction (m : Material) (l : ℝ) : ℂ :=
  (m.nfun l : ℂ) - Complex.I * (m.kfun l : ℂ)

/-- thinfilm.py `calculate_eta`, per wavelength: characteristic admittance
`y = N * Y`, tilted by the angle of incidence — `y / cos θ` for p-waves,
`y * cos θ` for s-waves. -/
def calculate_eta (m : Material) (angle_of_incidence : ℝ) (model_with_p_waves : Bool)
    (l : ℝ) : ℂ :=
  let N := get_complex_index_of_refraction m l
  let y := N * (Y : ℂ)
  if model_with_p_waves then y / (Real.cos angle_of_incidence : ℂ)
  else y * (Real.cos angle_of_incidence : ℂ)

/-- A per-wavelength 2×1 column of the running characteristic matrix
(`char_mat` has numpy shape `(L, 2, 1)`): `x` is the top (B) component, `y`
the bottom (C) component. -/
structure Vec2 where
  x : ℂ
  y : ℂ

/-- A per-wavelength 2×2 complex layer matrix. -/
structure Mat2 where
  a : ℂ
  b : ℂ
  c : ℂ
  d : ℂ

/-- 2×2 complex matrix product. -/
def Mat2.mul (M N : Mat2) : Mat2 :=
  ⟨M.a * N.a + M.b * N.c, M.a * N.b + M.b * N.d,
   M.c * N.a + M.d * N.c, M.c * N.b + M.d * N.d⟩

instance : Mul Mat2 :=
  ⟨Mat2.mul⟩

instance : One Mat2 :=
  ⟨⟨1, 0, 0, 1⟩⟩

/-- Matrix–column action, the per-wavelength content of
`np.matmul(layer, char_mat)`. -/
def Mat2.mulVec (M : Mat2) (v : Vec2) : Vec2 :=
  ⟨M.a * v.x + M.b * v.y, M.c * v.x + M.d * v.y⟩

/-- thinfilm.py `OpticalAssembly`: the stored wavelength grid, angle of
incidence, polarization flag, and the running per-wavelength characteristic
columns. -/
structure OpticalAssembly where
  wavelengths : List ℝ
  angle_of_incidence : ℝ
  model_with_p_waves : Bool
  char_mat : List Vec2

/-- `OpticalAssembly.__init__`: store the configuration and set the running
matrix to the substrate boundary column `[1, eta_sub(λ)]` at each wavelength
(source builds `[[ones], [substrate_eta]]` and transposes to `(L, 2, 1)`). -/
def OpticalAssembly.init (ws : List ℝ) (substrate_material : Material)
    (angle : ℝ) (p : Bool) : OpticalAssembly :=
  { wavelengths := ws
    angle_of_incidence := angle
    model_with_p_waves := p
    char_mat := ws.map fun l => ⟨1, calculate_eta substrate_material angle p l⟩ }

/-- The per-wavelength thin-film layer matrix built by
`OpticalAssembly.stack_thin_film`: with phase thickness
`delta = 2 π N d cos θ / λ`, the matrix
`[[cos δ, i sin δ / η], [i η sin δ, cos δ]]`. -/
def thin_film_char_mat (m : Material) (thickness angle : ℝ) (p : Bool) (l : ℝ) : Mat2 :=
  let thin_film_eta := calculate_eta m angle p l
  let thin_film_N := get_complex_index_of_refraction m l
  let delta : ℂ :=
    (2 * (Real.pi : ℂ) * thin_film_N * (thickness : ℂ) * (Real.cos angle : ℂ)) / (l : ℂ)
  ⟨Complex.cos delta, Complex.I * Complex.sin delta / thin_film_eta,
   Complex.I * thin_film_eta * Complex.sin delta, Complex.cos delta⟩

/-- `OpticalAssembly.stack_thin_film(material, thickness)`: build the layer
matrices on the grid, left-multiply the running matrix per wavelength, store
the result, and return the layer matrices (the method's return value). -/
def OpticalAssembly.stack_thin_film (a : OpticalAssembly) (m : Material)
    (thickness : ℝ) : OpticalAssembly × List Mat2 :=
  let mats := a.wavelengths.map
    (thin_film_char_mat m thickness a.angle_of_incidence a.model_with_p_waves)
  ({ a with char_mat := List.zipWith Mat2.mulVec mats a.char_mat }, mats)

/-- `OpticalAssembly.calculate_assembly_reflectance(incident_medium)`:
per wavelength, `B` and `C` from the running column, `gamma = C / B`,
`r = (η₀ - γ) / (η₀ + γ)`, returning `r * conj r`. -/
def OpticalAssembly.calculate_assembly_reflectance (a : OpticalAssembly)
    (incident_medium_material : Material) : List ℂ :=
  List.zipWith
    (fun l v =>
      let incident_medium_eta :=
        calculate_eta incident_medium_material a.angle_of_incidence a.model_with_p_waves l
      let gamma := v.y / v.x
      let r := (incident_medium_eta - gamma) / (incident_medium_eta + gamma)
      r * (starRingEnd ℂ) r)
    a.wavelengths a.char_mat

/-- State-passing form of `calculate_assembly_reflectance`: the Python method
body only reads `self` (it assigns no attribute), so the post-state is the
input state. -/
def OpticalAssembly.calculate_assembly_reflectance_run (a : OpticalAssembly)
    (incident_medium_material : Material) : List ℂ × OpticalAssembly :=
  (a.calculate_assembly_reflectance incident_medium_material, a)

/-- The reflectance value at one wavelength under IEEE float semantics:
`none` marks a wavelength at which a division by zero occurs (numpy emits a
non-finite NaN/Inf value there and every later operation keeps it non-finite),
`some` the exact finite value otherwise.  Divisions in the source expression:
`gamma = C / B` (zero when `B = 0`) and `r = (η₀ - γ) / (η₀ + γ)` (zero when
`η₀ + γ = 0`). -/
def reflectance_point_ieee (angle : ℝ) (p : Bool) (incident_medium_material : Material)
    (l : ℝ) (v : Vec2) : Option ℂ :=
  let eta0 := calculate_eta incident_medium_material angle p l
  if v.x = 0 then none
  else
    let gamma := v.y / v.x
    if eta0 + gamma = 0 then none
    else some ((eta0 - gamma) / (eta0 + gamma) * (starRingEnd ℂ) ((eta0 - gamma) / (eta0 + gamma)))

/-- `calculate_assembly_reflectance` with IEEE finiteness tracking: one
(possibly non-finite) value per wavelength, each produced independently from
that wavelength's data. -/
def OpticalAssembly.reflectance_ieee (a : OpticalAssembly)
    (incident_medium_material : Material) : List (Option ℂ) :=
  List.zipWith
    (reflectance_point_ieee a.angle_of_incidence a.model_with_p_waves incident_medium_material)
    a.wavelengths a.char_mat

/-- Numpy broadcast of two 1-d lengths: equal lengths pass through, a length
of 1 is stretched to the other, anything else raises `ValueError`. -/
def broadcast_len (a b : ℕ) : Option ℕ :=
  if a = b then some a else if a = 1 then some b else if b = 1 then some a else none

/-- Shape semantics of one `stack_thin_film` call when the material's
wavelength evaluation has length `m` and the assembly grid has length `L`:
`delta = (2 π N d cos θ) / wavelengths` broadcasts `m` against `L`; the matrix
entries `i sin δ / η` and `i η sin δ` broadcast that against `m`; the final
`np.matmul` broadcasts the layer-matrix count against the running matrix's
leading dimension `L`.  `none` is numpy's `ValueError` (the spec's
`DimensionMismatch`); `some r` is a successful call whose new running matrix
has leading dimension `r`. -/
def stack_thin_film_result_len (m L : ℕ) : Option ℕ :=
  match broadcast_len m L with
  | none => none
  | some d =>
    match broadcast_len d m with
    | none => none
    | some e => broadcast_len e L

/-- The spec's layer product for a list of `(material, thickness)` layers in
stacking order: each new layer matrix multiplies from the left, so the most
recently stacked layer ends leftmost. -/
def spec_layer_product (angle : ℝ) (p : Bool) (layers : List (Material × ℝ)) (l : ℝ) : Mat2 :=
  layers.foldl (fun acc ml => thin_film_char_mat ml.1 ml.2 angle p l * acc) 1

/-- Fold a sequence of `stack_thin_film` calls (in stacking order) over an
assembly. -/
def stack_layers (a : OpticalAssembly) (layers : List (Material × ℝ)) : OpticalAssembly :=
  layers.foldl (fun s ml => (s.stack_thin_film ml.1 ml.2).1) a

/-- The reflectance formula as the spec states it, per wavelength: `Γ = C/B`
from the running column `v`, `r = (η₀ - Γ)/(η₀ + Γ)` with `η₀` the incident
medium's tilted admittance at the stored angle and mode, returning
`r · conj r`. -/
def spec_reflectance_point (angle : ℝ) (p : Bool) (incident_medium_material : Material)
    (l : ℝ) (v : Vec2) : ℂ :=
  let eta0 := calculate_eta incident_medium_material angle p l
  let gamma := v.y / v.x
  let r := (eta0 - gamma) / (eta0 + gamma)
  r * (starRingEnd ℂ) r

end

theorem Mat2.mul_def (M N : Mat2) : M * N = Mat2.mul M N := rfl

theorem Mat2.one_def : (1 : Mat2) = ⟨1, 0, 0, 1⟩ := rfl

theorem Mat2.one_mul_mat (M : Mat2) : (1 : Mat2) * M = M := by
  cases M
  simp only [Mat2.mul_def, Mat2.mul, Mat2.one_def, Mat2.mk.injEq]
  refine ⟨by ring, by ring, by ring, by ring⟩

theorem Mat2.mul_one_mat (M : Mat2) : M * (1 : Mat2) = M := by
  cases M
  simp only [Mat2.mul_def, Mat2.mul, Mat2.one_def, Mat2.mk.injEq]
  refine ⟨by ring, by ring, by ring, by ring⟩

theorem Mat2.mul_assoc_mat (M N P : Mat2) : M * N * P = M * (N * P) := by
  cases M; cases N; cases P
  simp only [Mat2.mul_def, Mat2.mul, Mat2.mk.injEq]
  refine ⟨by ring, by ring, by ring, by ring⟩

theorem Mat2.one_mulVec (v : Vec2) : (1 : Mat2).mulVec v = v := by
  cases v
  simp only [Mat2.mulVec, Mat2.one_def, Vec2.mk.injEq]
  refine ⟨by ring, by ring⟩

theorem Mat2.mul_mulVec (M N : Mat2) (v : Vec2) : (M * N).mulVec v = M.mulVec (N.mulVec v) := by
  cases M; cases N; cases v
  simp only [Mat2.mul_def, Mat2.mul, Mat2.mulVec, Vec2.mk.injEq]
  refine ⟨by ring, by ring⟩

theorem zipWith_fuse {α β γ δ : Type _} (f : α → β → γ) (g : α → δ → β) :
    ∀ (l1 : List α) (l2 : List δ),
      List.zipWith f l1 (List.zipWith g l1 l2)
        = List.zipWith (fun a d => f a (g a d)) l1 l2 := by
  intro l1
  induction l1 with
  | nil => intro l2; simp
  | cons a t ih => intro l2; cases l2 <;> simp [ih]

theorem zipWith_right_id {α β : Type _} :
    ∀ (l1 : List α) (l2 : List β), l2.length = l1.length →
      List.zipWith (fun _ v => v) l1 l2 = l2 := by
  intro l1
  induction l1 with
  | nil => intro l2 h; simp [List.length_eq_zero.mp h]
  | cons a t ih =>
    intro l2 h
    cases l2 with
    | nil => simp
    | cons b u => simp only [List.zipWith_cons_cons, List.cons.injEq, true_and]
                  exact ih u (by simpa using h)

theorem forall_mem_zipWith {α β γ : Type _} (f : α → β → γ) (P : γ → Prop)
    (h : ∀ a b, P (f a b)) :
    ∀ (l1 : List α) (l2 : List β), ∀ z ∈ List.zipWith f l1 l2, P z := by
  intro l1
  induction l1 with
  | nil => intro l2 z hz; simp at hz
  | cons a t ih =>
    intro l2 z hz
    cases l2 with
    | nil => simp at hz
    | cons b u =>
      simp only [List.zipWith_cons_cons, List.mem_cons] at hz
      rcases hz with hz | hz
      · exact hz ▸ h a b
      · exact ih u z hz

theorem foldl_mul_shift {σ : Type _} (f : σ → Mat2) :
    ∀ (layers : List σ) (X : Mat2),
      layers.foldl (fun acc ml => f ml * acc) X
        = layers.foldl (fun acc ml => f ml * acc) 1 * X := by
  intro layers
  induction layers with
  | nil => intro X; simp [Mat2.one_mul_mat]
  | cons hd tl ih =>
    intro X
    simp only [List.foldl_cons]
    rw [ih (f hd * X), ih (f hd * 1), Mat2.mul_one_mat, Mat2.mul_assoc_mat]

theorem spec_layer_product_cons (angle : ℝ) (p : Bool) (hd : Material × ℝ)
    (tl : List (Material × ℝ)) (l : ℝ) :
    spec_layer_product angle p (hd :: tl) l
      = spec_layer_product angle p tl l * thin_film_char_mat hd.1 hd.2 angle p l := by
  unfold spec_layer_product
  simp only [List.foldl_cons]
  rw [foldl_mul_shift, Mat2.mul_one_mat]

theorem stack_layers_spec :
    ∀ (layers : List (Material × ℝ)) (a : OpticalAssembly),
      a.char_mat.length = a.wavelengths.length →
      (stack_layers a layers).wavelengths = a.wavelengths
        ∧ (stack_layers a layers).angle_of_incidence = a.angle_of_incidence
        ∧ (stack_layers a layers).model_with_p_waves = a.model_with_p_waves
        ∧ (stack_layers a layers).char_mat
            = List.zipWith
                (fun l v =>
                  (spec_layer_product a.angle_of_incidence a.model_with_p_waves layers l).mulVec v)
                a.wavelengths a.char_mat := by
  intro layers
  induction layers with
  | nil =>
    intro a h
    refine ⟨rfl, rfl, rfl, ?_⟩
    show a.char_mat = _
    simp only [spec_layer_product, List.foldl_nil, Mat2.one_mulVec]
    exact (zipWith_right_id a.wavelengths a.char_mat h).symm
  | cons hd tl ih =>
    intro a h
    have hstep : stack_layers a (hd :: tl) = stack_layers (a.stack_thin_film hd.1 hd.2).1 tl := by
      simp [stack_layers, List.foldl_cons]
    have hlen : (a.stack_thin_film hd.1 hd.2).1.char_mat.length
        = (a.stack_thin_film hd.1 hd.2).1.wavelengths.length := by
      simp [OpticalAssembly.stack_thin_film, List.length_zipWith, h]
    have hih := ih (a.stack_thin_film hd.1 hd.2).1 hlen
    rw [hstep]
    refine ⟨hih.1, hih.2.1, hih.2.2.1, ?_⟩
    rw [hih.2.2.2]
    show List.zipWith _ a.wavelengths
        (List.zipWith Mat2.mulVec
          (a.wavelengths.map
            (thin_film_char_mat hd.1 hd.2 a.angle_of_incidence a.model_with_p_waves))
          a.char_mat) = _
    rw [List.zipWith_map_left, zipWith_fuse]
    simp only [spec_layer_product_cons, Mat2.mul_mulVec]
    rfl

theorem thin_film_char_mat_zero (m : Material) (angle : ℝ) (p : Bool) (l : ℝ) :
    thin_film_char_mat m 0 angle p l = 1 := by
  unfold thin_film_char_mat
  simp only [Complex.ofReal_zero, mul_zero, zero_mul, zero_div, Complex.cos_zero,
    Complex.sin_zero, Mat2.one_def]

/-- C1: after any sequence of `stack_thin_film` calls on an assembly built by
`OpticalAssembly.init`, the running characteristic matrix equals, at each
wavelength independently, the product of the layer matrices (most recent
leftmost, `spec_layer_product`) applied to the substrate boundary column
`[1, eta_sub(λ)]`; and each single `stack_thin_film` call left-multiplies the
current per-wavelength column by the layer matrix
`[[cos δ, i sin δ / η_m], [i η_m sin δ, cos δ]]` with
`δ = 2 π N_m d cos θ / λ` (`thin_film_char_mat`), replacing the old matrix. -/
theorem c1_running_matrix_invariant (ws : List ℝ) (substrate_material : Material)
    (angle : ℝ) (p : Bool) (layers : List (Material × ℝ))
    (a : OpticalAssembly) (m : Material) (t : ℝ) :
    (stack_layers (OpticalAssembly.init ws substrate_material angle p) layers).char_mat
        = ws.map (fun l =>
            (spec_layer_product angle p layers l).mulVec
              ⟨1, calculate_eta substrate_material angle p l⟩)
      ∧ (a.stack_thin_film m t).1.char_mat
          = List.zipWith
              (fun l v =>
                (thin_film_char_mat m t a.angle_of_incidence a.model_with_p_waves l).mulVec v)
              a.wavelengths a.char_mat := by
  constructor
  · have h := stack_layers_spec layers (OpticalAssembly.init ws substrate_material angle p)
      (by simp [OpticalAssembly.init])
    rw [h.2.2.2]
    show List.zipWith _ ws
        (ws.map fun l => (⟨1, calculate_eta substrate_material angle p l⟩ : Vec2)) = _
    rw [List.zipWith_map_right, List.zipWith_same]
    rfl
  · show List.zipWith Mat2.mulVec (a.wavelengths.map _) a.char_mat = _
    rw [List.zipWith_map_left]

/-- C2: `calculate_assembly_reflectance` returns, per wavelength, `r · conj r`
with `r = (η₀ - Γ)/(η₀ + Γ)`, `Γ = C/B` the ratio of the bottom to the top
component of the running column, and `η₀` the incident medium's tilted
admittance at the stored angle and mode (`spec_reflectance_point`); every
returned value is a non-negative real. -/
theorem c2_reflectance_formula (a : OpticalAssembly) (inc : Material) :
    a.calculate_assembly_reflectance inc
        = List.zipWith (spec_reflectance_point a.angle_of_incidence a.model_with_p_waves inc)
            a.wavelengths a.char_mat
      ∧ ∀ z ∈ a.calculate_assembly_reflectance inc, z.im = 0 ∧ 0 ≤ z.re := by
  refine ⟨rfl, forall_mem_zipWith _ (fun z : ℂ => z.im = 0 ∧ 0 ≤ z.re) ?_ _ _⟩
  intro l v
  simp only [Complex.mul_conj, Complex.ofReal_im, Complex.ofReal_re]
  exact ⟨trivial, Complex.normSq_nonneg _⟩

/-- Witness for C2 at a concrete assembly: a constant substrate of index 1.5
on a one-point grid at normal incidence, queried with an air incident
medium. -/
theorem c2_reflectance_formula_witness :
    (spec_reflectance_point 0 false ⟨fun _ => 1, fun _ => 0⟩ 500
        ⟨1, calculate_eta ⟨fun _ => 1.5, fun _ => 0⟩ 0 false 500⟩).im = 0
      ∧ 0 ≤ (spec_reflectance_point 0 false ⟨fun _ => 1, fun _ => 0⟩ 500
          ⟨1, calculate_eta ⟨fun _ => 1.5, fun _ => 0⟩ 0 false 500⟩).re :=
  (c2_reflectance_formula
      (OpticalAssembly.init [500] ⟨fun _ => 1.5, fun _ => 0⟩ 0 false)
      ⟨fun _ => 1, fun _ => 0⟩).2 _
    (List.mem_singleton.mpr rfl)

/-- C3: stacking a single layer of thickness 0 of any material and then
querying reflectance yields exactly the bare-substrate reflectance, because
`δ = 0` makes the layer matrix the identity. -/
theorem c3_zero_thickness_noop (ws : List ℝ) (substrate_material m inc : Material)
    (angle : ℝ) (p : Bool) :
    (((OpticalAssembly.init ws substrate_material angle p).stack_thin_film m 0).1).calculate_assembly_reflectance inc
      = (OpticalAssembly.init ws substrate_material angle p).calculate_assembly_reflectance inc := by
  have hx : List.zipWith Mat2.mulVec
      (ws.map (thin_film_char_mat m 0 angle p))
      (ws.map fun l => (⟨1, calculate_eta substrate_material angle p l⟩ : Vec2))
      = ws.map fun l => (⟨1, calculate_eta substrate_material angle p l⟩ : Vec2) := by
    rw [List.zipWith_map_left]
    simp only [thin_film_char_mat_zero, Mat2.one_mulVec]
    exact zipWith_right_id ws _ (by simp)
  have hmat : ((OpticalAssembly.init ws substrate_material angle p).stack_thin_film m 0).1
      = OpticalAssembly.init ws substrate_material angle p := by
    show OpticalAssembly.mk ws angle p
        (List.zipWith Mat2.mulVec
          (ws.map (thin_film_char_mat m 0 angle p))
          (ws.map fun l => (⟨1, calculate_eta substrate_material angle p l⟩ : Vec2)))
      = OpticalAssembly.mk ws angle p
          (ws.map fun l => (⟨1, calculate_eta substrate_material angle p l⟩ : Vec2))
    rw [hx]
  rw [hmat]

/-- C6: the tilted admittance is `N(λ)·Y₀ / cos θ` for p-polarization and
`N(λ)·Y₀ · cos θ` for s-polarization, with `N(λ) = n(λ) - i k(λ)` and
`Y₀ = 2.6544e-3` exactly. -/
theorem c6_tilted_admittance_formula (m : Material) (angle l : ℝ) :
    Y = 2.6544e-3
      ∧ calculate_eta m angle true l
          = ((m.nfun l : ℂ) - Complex.I * (m.kfun l : ℂ)) * (2.6544e-3 : ℂ)
              / (Real.cos angle : ℂ)
      ∧ calculate_eta m angle false l
          = ((m.nfun l : ℂ) - Complex.I * (m.kfun l : ℂ)) * (2.6544e-3 : ℂ)
              * (Real.cos angle : ℂ) := by
  refine ⟨rfl, ?_, ?_⟩ <;>
  · unfold calculate_eta get_complex_index_of_refraction Y
    norm_num

/-- C8: if the incident medium equals the substrate and no layers are
stacked, the reflectance is exactly 0 at every wavelength. -/
theorem c8_matched_admittance_zero (ws : List ℝ) (mat : Material) (angle : ℝ) (p : Bool) :
    (OpticalAssembly.init ws mat angle p).calculate_assembly_reflectance mat
      = List.replicate ws.length 0 := by
  show List.zipWith (spec_reflectance_point angle p mat) ws
      (ws.map fun l => (⟨1, calculate_eta mat angle p l⟩ : Vec2)) = _
  rw [List.zipWith_map_right, List.zipWith_same]
  have hpt : ∀ l : ℝ,
      spec_reflectance_point angle p mat l ⟨1, calculate_eta mat angle p l⟩ = 0 := by
    intro l
    simp [spec_reflectance_point, div_one, sub_self, zero_div, zero_mul]
  simp only [hpt, List.map_const']

/-- C10: `stack_thin_film` leaves the configuration fields (wavelength grid,
angle, polarization mode) unchanged, `calculate_assembly_reflectance` leaves
the whole assembly state unchanged, and two successive reflectance queries on
the same assembly return equal results. -/
theorem c10_frame_conditions (a : OpticalAssembly) (m : Material) (t : ℝ) (inc : Material) :
    ((a.stack_thin_film m t).1.wavelengths = a.wavelengths
        ∧ (a.stack_thin_film m t).1.angle_of_incidence = a.angle_of_incidence
        ∧ (a.stack_thin_film m t).1.model_with_p_waves = a.model_with_p_waves)
      ∧ (a.calculate_assembly_reflectance_run inc).2 = a
      ∧ ((a.calculate_assembly_reflectance_run inc).2.calculate_assembly_reflectance_run inc).1
          = (a.calculate_assembly_reflectance_run inc).1 :=
  ⟨⟨rfl, rfl, rfl⟩, rfl, rfl⟩

/-- C4: constructing a material fails (the constructor raises, the spec's
`ConfigurationError`) exactly when the `n` source or the `k` source is
neither a numeric constant nor a resolvable dispersion-table reference; it
succeeds whenever each source is a real constant or a resolvable table. -/
theorem c4_configuration_error (n k : NKSource) :
    (Material.init n k).isOk = false
      ↔ (n = NKSource.unresolvable ∨ k = NKSource.unresolvable) := by
  cases n <;> cases k <;>
    simp [Material.init, build_nk_fun, Except.bind, Except.isOk, Except.toBool]

/-- Witness for C4: an unresolvable `n` source makes construction fail. -/
theorem c4_configuration_error_witness :
    (Material.init NKSource.unresolvable (NKSource.realConst 1)).isOk = false :=
  (c4_configuration_error _ _).mpr (Or.inl rfl)

/-- C5 counterexample: a material evaluation of length 1 on a grid of length
2 does not match the grid length, yet the `stack_thin_film` call succeeds
(numpy size-1 broadcasting), producing a running matrix of leading dimension
2 instead of raising. -/
theorem c5_dimension_mismatch_counterexample :
    (1 : ℕ) ≠ 2 ∧ stack_thin_film_result_len 1 2 = some 2 := by
  exact ⟨by decide, by decide⟩

/-- C5 (amended): a `stack_thin_film` call fails (numpy `ValueError`, the
spec's `DimensionMismatch`) exactly when the material's evaluation length
differs from the assembly's grid length and neither length is 1; in
particular, when the lengths match the call never fails this way. -/
theorem c5_dimension_mismatch_amended (m L : ℕ) :
    stack_thin_film_result_len m L = none ↔ (m ≠ L ∧ m ≠ 1 ∧ L ≠ 1) := by
  rcases eq_or_ne m L with hml | hml
  · subst hml
    simp [stack_thin_film_result_len, broadcast_len]
  · rcases eq_or_ne m 1 with hm1 | hm1
    · subst hm1
      have hL : L ≠ 1 := fun h => hml h.symm
      simp [stack_thin_film_result_len, broadcast_len, hml, hL]
    · rcases eq_or_ne L 1 with hL1 | hL1
      · subst hL1
        simp [stack_thin_film_result_len, broadcast_len, hml, hm1]
      · simp [stack_thin_film_result_len, broadcast_len, hml, hm1, hL1]

/-- Witness for C5 (amended): lengths 3 and 2 genuinely fail. -/
theorem c5_dimension_mismatch_witness :
    stack_thin_film_result_len 3 2 = none :=
  (c5_dimension_mismatch_amended 3 2).mpr (by decide)

/-- C7: under IEEE float semantics, a running matrix whose top component
`B(λ)` is 0 at some wavelength makes `calculate_assembly_reflectance` produce
a non-finite value (`none`) at that wavelength without raising, while the
value at every other wavelength is the same per-wavelength function of that
wavelength's own data alone. -/
theorem c7_degenerate_nonfinite (a : OpticalAssembly) (inc : Material) (i : ℕ)
    (hr : i < (a.reflectance_ieee inc).length) (hw : i < a.wavelengths.length)
    (hc : i < a.char_mat.length)
    (hB : (a.char_mat.get ⟨i, hc⟩).x = 0) :
    (a.reflectance_ieee inc).get ⟨i, hr⟩ = none
      ∧ ∀ (j : ℕ) (hj : j < (a.reflectance_ieee inc).length)
          (hjw : j < a.wavelengths.length) (hjc : j < a.char_mat.length),
          (a.reflectance_ieee inc).get ⟨j, hj⟩
            = reflectance_point_ieee a.angle_of_incidence a.model_with_p_waves inc
                (a.wavelengths.get ⟨j, hjw⟩) (a.char_mat.get ⟨j, hjc⟩) := by
  have hpt : ∀ (j : ℕ) (hj : j < (a.reflectance_ieee inc).length)
      (hjw : j < a.wavelengths.length) (hjc : j < a.char_mat.length),
      (a.reflectance_ieee inc).get ⟨j, hj⟩
        = reflectance_point_ieee a.angle_of_incidence a.model_with_p_waves inc
            (a.wavelengths.get ⟨j, hjw⟩) (a.char_mat.get ⟨j, hjc⟩) := by
    intro j hj hjw hjc
    show (List.zipWith _ a.wavelengths a.char_mat).get ⟨j, hj⟩ = _
    rw [List.get_eq_getElem, List.getElem_zipWith]
    rfl
  refine ⟨?_, hpt⟩
  rw [hpt i hr hw hc]
  simp only [reflectance_point_ieee, hB, if_pos]

/-- Witness for C7: a two-wavelength assembly whose running matrix has
`B = 0` at the first wavelength yields `none` there and the ordinary
per-wavelength value at the second. -/
theorem c7_degenerate_nonfinite_witness :
    (OpticalAssembly.reflectance_ieee ⟨[500, 600], 0, false, [⟨0, 1⟩, ⟨1, 2⟩]⟩
        ⟨fun _ => 1, fun _ => 0⟩).get ⟨0, by decide⟩ = none
      ∧ (OpticalAssembly.reflectance_ieee ⟨[500, 600], 0, false, [⟨0, 1⟩, ⟨1, 2⟩]⟩
          ⟨fun _ => 1, fun _ => 0⟩).get ⟨1, by decide⟩
          = reflectance_point_ieee 0 false ⟨fun _ => 1, fun _ => 0⟩ 600 ⟨1, 2⟩ :=
  ⟨(c7_degenerate_nonfinite ⟨[500, 600], 0, false, [⟨0, 1⟩, ⟨1, 2⟩]⟩
      ⟨fun _ => 1, fun _ => 0⟩ 0 (by decide) (by decide) (by decide) rfl).1,
   (c7_degenerate_nonfinite ⟨[500, 600], 0, false, [⟨0, 1⟩, ⟨1, 2⟩]⟩
      ⟨fun _ => 1, fun _ => 0⟩ 0 (by decide) (by decide) (by decide) rfl).2
      1 (by decide) (by decide) (by decide)⟩

/-- C9: a material whose `n` and `k` sources are real constants returns the
constants exactly: a scalar input yields the scalar constant and a sequence
input yields a same-length sequence of the constant, for both `get_n` and
`get_k`. -/
theorem c9_constant_material_roundtrip (cn ck x : ℝ) (ws : List ℝ) (M : Material)
    (h : Material.init (NKSource.realConst cn) (NKSource.realConst ck) = Except.ok M) :
    M.get_n (PyArr.scalar x) = PyArr.scalar cn
      ∧ M.get_n (PyArr.arr ws) = PyArr.arr (List.replicate ws.length cn)
      ∧ M.get_k (PyArr.scalar x) = PyArr.scalar ck
      ∧ M.get_k (PyArr.arr ws) = PyArr.arr (List.replicate ws.length ck) := by
  have h2 := h
  simp only [Material.init, build_nk_fun, Except.bind, Except.ok.injEq] at h2
  subst h2
  refine ⟨rfl, ?_, rfl, ?_⟩ <;>
    simp [Material.get_n, Material.get_k, List.map_const']

/-- Witness for C9 at the spec's example constant n = 1.5 (k = 0). -/
theorem c9_constant_material_roundtrip_witness :
    Material.get_n ⟨fun _ => (1.5 : ℝ), fun _ => (0 : ℝ)⟩ (PyArr.scalar 500)
        = PyArr.scalar 1.5
      ∧ Material.get_n ⟨fun _ => (1.5 : ℝ), fun _ => (0 : ℝ)⟩ (PyArr.arr [400, 500])
          = PyArr.arr (List.replicate ([400, 500] : List ℝ).length 1.5)
      ∧ Material.get_k ⟨fun _ => (1.5 : ℝ), fun _ => (0 : ℝ)⟩ (PyArr.scalar 500)
          = PyArr.scalar 0
      ∧ Material.get_k ⟨fun _ => (1.5 : ℝ), fun _ => (0 : ℝ)⟩ (PyArr.arr [400, 500])
          = PyArr.arr (List.replicate ([400, 500] : List ℝ).length 0) :=
  c9_constant_material_roundtrip 1.5 0 500 [400, 500] ⟨fun _ => 1.5, fun _ => 0⟩ rfl

